import Mathlib

/-!
Verification of the cpudetect CPUID decode engine (Rust) against its
natural-language specification, via a shallow embedding in Lean 4.

Modelling conventions:
* A 32-bit register word is a `Nat`; the hardware is a `CpuidEnv`, a function
  from (leaf, subleaf) to four words, normalised `% 2^32` at the probe
  boundary (`cpuid`), mirroring the `u32` fields of `CpuidResult`.
* Integer arithmetic follows Rust release-profile semantics: `+`, `-`, `*`
  on `u32` wrap modulo `2^32` (written as explicit `% 2^32` exactly where the
  source value can exceed the width), shift amounts are masked `% 32`, and
  `as u32` casts truncate `% 2^32`.
* Division by zero aborts a Rust program in every profile; fallible code
  paths therefore return `Option`, with `none` standing for the panic.
* Definitions keep the source's names and control flow; `for` loops with
  `break`/`continue` become structural recursion on the (fixed, small)
  remaining iteration count.
-/

/-- Four 32-bit output words of one CPUID invocation (src/cpuid.rs `CpuidResult`). -/
structure CpuidResult where
  eax : Nat
  ebx : Nat
  ecx : Nat
  edx : Nat
deriving DecidableEq, Repr

/-- Register selector (src/cpuid.rs `Register`). -/
inductive Register where
  | Eax
  | Ebx
  | Ecx
  | Edx
deriving DecidableEq, Repr

/-- Value of the selected register: the `match register` block that opens both
`is_bit_set` and `extract_bits` in src/cpuid.rs. -/
def CpuidResult.reg (r : CpuidResult) (register : Register) : Nat :=
  match register with
  | Register.Eax => r.eax
  | Register.Ebx => r.ebx
  | Register.Ecx => r.ecx
  | Register.Edx => r.edx

/-- src/cpuid.rs `CpuidResult::is_bit_set`: `(value & (1 << bit)) != 0`.
The `u32` shift masks its amount `% 32` (release semantics). -/
def CpuidResult.is_bit_set (r : CpuidResult) (register : Register) (bit : Nat) : Bool :=
  (r.reg register &&& (1 <<< (bit % 32))) != 0

/-- src/cpuid.rs `CpuidResult::extract_bits`:
`let mask = (1u32 << (end - start + 1)) - 1; (value >> start) & mask`.
`end - start` is wrapping `u32` subtraction (arguments are `u32`, assumed
`< 2^32`), `+ 1` wraps, and both shift amounts are masked `% 32`. -/
def CpuidResult.extract_bits (r : CpuidResult) (register : Register) (start e : Nat) : Nat :=
  let value := r.reg register
  let mask := (1 <<< (((e + 2 ^ 32 - start) % 2 ^ 32 + 1) % 2 ^ 32 % 32)) - 1
  (value >>> (start % 32)) &&& mask

/-- The probe environment: what the hardware answers to each (leaf, subleaf)
CPUID query. The raw-instruction interface `cpuid(leaf, subleaf)` is a pure
read of this environment. -/
structure CpuidEnv where
  probe : Nat → Nat → CpuidResult

/-- src/cpuid.rs `cpuid(leaf, subleaf)`: executes the instruction; the four
outputs are 32-bit words, enforced here by truncation at the boundary. -/
def cpuid (env : CpuidEnv) (leaf subleaf : Nat) : CpuidResult :=
  let r := env.probe leaf subleaf
  ⟨r.eax % 2 ^ 32, r.ebx % 2 ^ 32, r.ecx % 2 ^ 32, r.edx % 2 ^ 32⟩

/-- src/cpuid.rs `max_cpuid_leaf()`: `cpuid(0, 0).eax`. -/
def max_cpuid_leaf (env : CpuidEnv) : Nat := (cpuid env 0 0).eax

/-- src/cpuid.rs `max_extended_leaf()`: `cpuid(0x8000_0000, 0).eax`. -/
def max_extended_leaf (env : CpuidEnv) : Nat := (cpuid env 0x80000000 0).eax

/-- src/cpuid.rs `is_leaf_supported(leaf)`. -/
def is_leaf_supported (env : CpuidEnv) (leaf : Nat) : Bool :=
  if leaf < 0x80000000 then
    decide (leaf ≤ max_cpuid_leaf env)
  else
    decide (leaf ≤ max_extended_leaf env)

/-- Helper: a constant-valued mask equal to `2^n - 1` extracts `x % 2^n`. -/
theorem land_mask_eq_mod (x n m : Nat) (h : m = 2 ^ n - 1) : x &&& m = x % 2 ^ n := by
  subst h
  exact Nat.and_pow_two_sub_one_eq_mod x n

/-- Cache level (src/cache.rs `CacheLevel`). -/
inductive CacheLevel where
  | L1
  | L2
  | L3
  | L4
deriving DecidableEq, Repr

/-- Cache kind (src/cache.rs `CacheType`). -/
inductive CacheType where
  | Data
  | Instruction
  | Unified
deriving DecidableEq, Repr

/-- Decoded cache entry (src/cache.rs `CacheInfo`). `size` is `u64` in the
source; the deterministic path computes it in `u32` before widening. -/
structure CacheInfo where
  level : CacheLevel
  cache_type : CacheType
  size : Nat
  ways : Nat
  line_size : Nat
  sets : Nat
  shared_by : Nat
deriving DecidableEq, Repr

/-- The `match cache_type_bits` arm of `detect_intel_caches`: 1/2/3 map to a
type, anything else is `continue` (here `none`). -/
def intel_cache_type (bits : Nat) : Option CacheType :=
  match bits with
  | 1 => some CacheType.Data
  | 2 => some CacheType.Instruction
  | 3 => some CacheType.Unified
  | _ => none

/-- The `match (result.eax >> 5) & 0x7` arm of `detect_intel_caches`: 1..4 map
to a level, anything else is `continue` (here `none`). -/
def intel_cache_level (bits : Nat) : Option CacheLevel :=
  match bits with
  | 1 => some CacheLevel.L1
  | 2 => some CacheLevel.L2
  | 3 => some CacheLevel.L3
  | 4 => some CacheLevel.L4
  | _ => none

/-- Partition-count field of a deterministic cache subleaf:
`((result.ebx >> 12) & 0x3FF) + 1` in `detect_intel_caches`. The source does
not record it in `CacheInfo`, but the size formula consumes it. -/
def intel_partitions (r : CpuidResult) : Nat :=
  ((r.ebx >>> 12) &&& 0x3FF) + 1

/-- Body of one `detect_intel_caches` loop iteration on registers `r`:
`none` when the iteration pushes nothing (type 0 is handled by the caller as
the stop condition; unknown type/level codes are `continue`), otherwise the
pushed `CacheInfo`. All field arithmetic is `u32`; only the final size
product can exceed 32 bits, hence its `% 2^32`. -/
def decode_intel_subleaf (r : CpuidResult) : Option CacheInfo :=
  let cache_type_bits := r.eax &&& 0x1F
  match intel_cache_type cache_type_bits, intel_cache_level ((r.eax >>> 5) &&& 0x7) with
  | some cache_type, some level =>
    let ways := ((r.ebx >>> 22) &&& 0x3FF) + 1
    let partitions := intel_partitions r
    let line_size := (r.ebx &&& 0xFFF) + 1
    let sets := (r.ecx + 1) % 2 ^ 32
    let shared_by := ((r.eax >>> 14) &&& 0xFFF) + 1
    let size := ways * partitions * line_size * sets % 2 ^ 32
    some ⟨level, cache_type, size, ways, line_size, sets, shared_by⟩
  | _, _ => none

/-- Loop of src/cache.rs `detect_intel_caches`, recursion on the remaining
iteration count of `for index in 0..32`; `index` is the subleaf to probe. -/
def intel_go (env : CpuidEnv) : Nat → Nat → List CacheInfo
  | 0, _ => []
  | fuel + 1, index =>
    let r := cpuid env 4 index
    if r.eax &&& 0x1F = 0 then
      []
    else
      match decode_intel_subleaf r with
      | some c => c :: intel_go env fuel (index + 1)
      | none => intel_go env fuel (index + 1)

/-- src/cache.rs `detect_intel_caches`: walk subleaves of leaf 4. -/
def detect_intel_caches (env : CpuidEnv) : List CacheInfo :=
  intel_go env 32 0

/-- Rust `/` on integers: panics (`none`) on a zero divisor. -/
def checked_div (a b : Nat) : Option Nat :=
  if b = 0 then none else some (a / b)

/-- One byte-lane group of `detect_amd_caches`: when the decoded size is
positive, push an entry whose set count is `size / (ways * line_size)` cast
`as u32`; the division panics (`none`) when `ways * line_size = 0`. When the
size is zero nothing is pushed. -/
def amd_lane (level : CacheLevel) (cache_type : CacheType) (size ways line_size : Nat) :
    Option (List CacheInfo) :=
  if 0 < size then
    (checked_div size (ways * line_size)).map fun q =>
      [⟨level, cache_type, size, ways, line_size, q % 2 ^ 32, 1⟩]
  else
    some []

/-- src/cache.rs `detect_amd_caches`: the legacy packed format. L1 data and
instruction lanes come from leaf 0x8000_0005 (size byte in KB), the L2 lane
from leaf 0x8000_0006 ECX (16-bit size lane in KB), the L3 lane from leaf
0x8000_0006 EDX (14-bit size field scaled by 512 KB). `none` models the
divide-by-zero panic. -/
def detect_amd_caches (env : CpuidEnv) : Option (List CacheInfo) :=
  Option.bind
    (if is_leaf_supported env 0x80000005 then
      let r := cpuid env 0x80000005 0
      Option.bind
        (amd_lane CacheLevel.L1 CacheType.Data
          (((r.ecx >>> 24) &&& 0xFF) * 1024) ((r.ecx >>> 16) &&& 0xFF) (r.ecx &&& 0xFF))
        fun d =>
      Option.bind
        (amd_lane CacheLevel.L1 CacheType.Instruction
          (((r.edx >>> 24) &&& 0xFF) * 1024) ((r.edx >>> 16) &&& 0xFF) (r.edx &&& 0xFF))
        fun i =>
      some (d ++ i)
    else
      some [])
    fun l1 =>
  Option.bind
    (if is_leaf_supported env 0x80000006 then
      let r := cpuid env 0x80000006 0
      Option.bind
        (amd_lane CacheLevel.L2 CacheType.Unified
          (((r.ecx >>> 16) &&& 0xFFFF) * 1024) ((r.ecx >>> 12) &&& 0xF) (r.ecx &&& 0xFF))
        fun l2 =>
      Option.bind
        (amd_lane CacheLevel.L3 CacheType.Unified
          (((r.edx >>> 18) &&& 0x3FFF) * 512 * 1024) ((r.edx >>> 12) &&& 0xF) (r.edx &&& 0xFF))
        fun l3 =>
      some (l2 ++ l3)
    else
      some [])
    fun l23 =>
  some (l1 ++ l23)

/-- src/cache.rs `CacheInfo::detect_all`: deterministic path when leaf 4 is
supported, otherwise the legacy packed path when leaf 0x8000_0005 is. -/
def CacheInfo.detect_all (env : CpuidEnv) : Option (List CacheInfo) :=
  if is_leaf_supported env 4 then
    some (detect_intel_caches env)
  else if is_leaf_supported env 0x80000005 then
    detect_amd_caches env
  else
    some []

/-- Decoded topology (src/topology.rs `CpuTopology`). -/
structure CpuTopology where
  logical_processors : Nat
  physical_cores : Nat
  threads_per_core : Nat
  has_hyperthreading : Bool
  hybrid : Bool
deriving DecidableEq, Repr

/-- Loop of src/topology.rs `detect_threads_per_core_leaf_b`
(`for subleaf in 0..10`): return `ebx & 0xFFFF` of the first subleaf whose
level type (`(ecx >> 8) & 0xFF`) is 1, stop with 1 at level type 0 or when
the ten iterations are exhausted. -/
def ttpc_go (env : CpuidEnv) : Nat → Nat → Nat
  | 0, _ => 1
  | fuel + 1, subleaf =>
    let r := cpuid env 0xB subleaf
    let level_type := (r.ecx >>> 8) &&& 0xFF
    if level_type = 1 then
      r.ebx &&& 0xFFFF
    else if level_type = 0 then
      1
    else
      ttpc_go env fuel (subleaf + 1)

/-- src/topology.rs `detect_threads_per_core_leaf_b`. -/
def detect_threads_per_core_leaf_b (env : CpuidEnv) : Nat :=
  ttpc_go env 10 0

/-- Loop of src/topology.rs `detect_logical_processors_leaf_b`: identical to
`ttpc_go` except that it looks for level type 2 (core level). -/
def dlp_go (env : CpuidEnv) : Nat → Nat → Nat
  | 0, _ => 1
  | fuel + 1, subleaf =>
    let r := cpuid env 0xB subleaf
    let level_type := (r.ecx >>> 8) &&& 0xFF
    if level_type = 2 then
      r.ebx &&& 0xFFFF
    else if level_type = 0 then
      1
    else
      dlp_go env fuel (subleaf + 1)

/-- src/topology.rs `detect_logical_processors_leaf_b`. -/
def detect_logical_processors_leaf_b (env : CpuidEnv) : Nat :=
  dlp_go env 10 0

/-- src/topology.rs `CpuTopology::detect`, with the mutable locals threaded
explicitly. The leaf 0xB branch assigns `physical_cores` only when both
decoded counts are positive (it otherwise keeps its initial value 1). -/
def CpuTopology.detect (env : CpuidEnv) : CpuTopology :=
  let has_hyperthreading :=
    if is_leaf_supported env 1 then
      (cpuid env 1 0).edx &&& (1 <<< 28) != 0
    else
      false
  let hybrid :=
    if is_leaf_supported env 7 then
      (cpuid env 7 0).edx &&& (1 <<< 15) != 0
    else
      false
  if is_leaf_supported env 0xB then
    let threads_per_core := detect_threads_per_core_leaf_b env
    let logical_processors := detect_logical_processors_leaf_b env
    let physical_cores :=
      if 0 < logical_processors ∧ 0 < threads_per_core then
        logical_processors / threads_per_core
      else
        1
    ⟨logical_processors, physical_cores, threads_per_core, has_hyperthreading, hybrid⟩
  else
    let logical_processors :=
      if is_leaf_supported env 1 then ((cpuid env 1 0).ebx >>> 16) &&& 0xFF else 1
    let physical_cores :=
      if is_leaf_supported env 4 then (((cpuid env 4 0).eax >>> 26) &&& 0x3F) + 1 else 1
    let logical_processors :=
      if logical_processors = 1 ∧ has_hyperthreading = false then
        physical_cores
      else
        logical_processors
    let threads_per_core :=
      if 0 < physical_cores then logical_processors / physical_cores else 1
    ⟨logical_processors, physical_cores, threads_per_core, has_hyperthreading, hybrid⟩

/-- src/vendor.rs `extract_family`: base family bits [11:8], plus extended
family bits [27:20] when the base family is 0xF (sum at most 15 + 255, so no
`u32` wrap is possible). -/
def extract_family (eax : Nat) : Nat :=
  let base_family := (eax >>> 8) &&& 0xF
  let extended_family := (eax >>> 20) &&& 0xFF
  if base_family = 0xF then
    base_family + extended_family
  else
    base_family

/-- src/vendor.rs `extract_model`: base model bits [7:4], prefixed by the
extended model bits [19:16] as the high nibble when the (pre-fold) family
bits [11:8] are 6 or 0xF. -/
def extract_model (eax : Nat) : Nat :=
  let base_model := (eax >>> 4) &&& 0xF
  let extended_model := (eax >>> 16) &&& 0xF
  let family := (eax >>> 8) &&& 0xF
  if family = 0x6 ∨ family = 0xF then
    (extended_model <<< 4) ||| base_model
  else
    base_model

/-- Probe trace of src/vendor.rs `VendorInfo::detect`: `cpuid(0, 0)` for the
vendor string, `cpuid(1, 0)` for the signature, and `cpuid(leaf, 0)` for
`leaf in 0x8000_0002..=0x8000_0004` inside `read_brand_string`. The function
is straight-line — it contains no `is_leaf_supported` call and no branch that
avoids a probe — so its (leaf, subleaf) trace is input-independent. -/
def vendor_detect_probes : List (Nat × Nat) :=
  [(0, 0), (1, 0), (0x80000002, 0), (0x80000003, 0), (0x80000004, 0)]

/-- Decoded address widths (src/address.rs `AddressInfo`). -/
structure AddressInfo where
  physical_bits : Nat
  virtual_bits : Nat
  guest_physical_bits : Option Nat
deriving DecidableEq, Repr

/-- src/address.rs `AddressInfo::detect`: defaults 36/48/`None`, overwritten
from leaf 0x8000_0008 EAX when that leaf is supported; the guest-physical
width is `Some` exactly when its 8-bit field is positive. -/
def AddressInfo.detect (env : CpuidEnv) : AddressInfo :=
  if is_leaf_supported env 0x80000008 then
    let r := cpuid env 0x80000008 0
    let guest_phys := (r.eax >>> 16) &&& 0xFF
    { physical_bits := r.eax &&& 0xFF
      virtual_bits := (r.eax >>> 8) &&& 0xFF
      guest_physical_bits := if 0 < guest_phys then some guest_phys else none }
  else
    { physical_bits := 36, virtual_bits := 48, guest_physical_bits := none }

/-- Feature category tags (src/features.rs `FeatureCategory`). -/
inductive FeatureCategory where
  | Simd
  | Security
  | Virtualization
  | Cryptography
  | Performance
  | Debug
  | Power
  | Memory
  | System
deriving DecidableEq, Repr

/-- A named feature flag (src/features.rs `Feature`). -/
structure Feature where
  name : String
  category : FeatureCategory
  description : String
  supported : Bool
deriving DecidableEq, Repr

/-- EBX bit table of src/features.rs `detect_perfmon` (leaf 0xA): the
architectural performance-monitoring events, one tuple per bit. -/
def perfmon_ebx_features : List (Nat × String × FeatureCategory × String) :=
  [ (0, "PERFMON_CORE_CYCLES", FeatureCategory.Performance, "Core cycle event available"),
    (1, "PERFMON_INSTR_RETIRED", FeatureCategory.Performance, "Instruction retired event available"),
    (2, "PERFMON_REF_CYCLES", FeatureCategory.Performance, "Reference cycles event available"),
    (3, "PERFMON_LLC_REF", FeatureCategory.Performance, "LLC reference event available"),
    (4, "PERFMON_LLC_MISSES", FeatureCategory.Performance, "LLC misses event available"),
    (5, "PERFMON_BR_INSTR", FeatureCategory.Performance, "Branch instruction retired event available"),
    (6, "PERFMON_BR_MISPREDICT", FeatureCategory.Performance, "Branch mispredict retired event available") ]

/-- EDX bit table of src/features.rs `detect_perfmon` (leaf 0xA): the fixed
counters and the AnyThread-deprecation bit. -/
def perfmon_edx_features : List (Nat × String × FeatureCategory × String) :=
  [ (0, "PERFMON_FIXED_CTR0", FeatureCategory.Performance, "Fixed counter 0"),
    (1, "PERFMON_FIXED_CTR1", FeatureCategory.Performance, "Fixed counter 1"),
    (2, "PERFMON_FIXED_CTR2", FeatureCategory.Performance, "Fixed counter 2"),
    (15, "PERFMON_ANYTHREAD_DEPRECATED", FeatureCategory.Performance, "AnyThread deprecation") ]

/-- The `Feature` pushed for one EBX table row in `detect_perfmon`:
`supported: (result.ebx & (1 << bit)) == 0` — inverted polarity, the bit
being clear means the event is available. -/
def perfmon_ebx_flag (r : CpuidResult) (p : Nat × String × FeatureCategory × String) : Feature :=
  ⟨p.2.1, p.2.2.1, p.2.2.2, r.ebx &&& (1 <<< (p.1 % 32)) == 0⟩

/-- The `Feature` pushed for one EDX table row in `detect_perfmon`:
`supported: (result.edx & (1 << bit)) != 0` — ordinary polarity. -/
def perfmon_edx_flag (r : CpuidResult) (p : Nat × String × FeatureCategory × String) : Feature :=
  ⟨p.2.1, p.2.2.1, p.2.2.2, r.edx &&& (1 <<< (p.1 % 32)) != 0⟩

/-- src/features.rs `detect_perfmon`: nothing when leaf 0xA is unsupported;
otherwise the optional version flag, then the EBX table (inverted polarity),
then the EDX table (ordinary polarity), in push order. -/
def detect_perfmon (env : CpuidEnv) : List Feature :=
  if is_leaf_supported env 0xA then
    let r := cpuid env 0xA 0
    let version := r.eax &&& 0xFF
    (if 0 < version then
      [⟨"PERFMON_V" ++ toString version, FeatureCategory.Performance,
        "Performance Monitoring version", true⟩]
     else []) ++
    perfmon_ebx_features.map (perfmon_ebx_flag r) ++
    perfmon_edx_features.map (perfmon_edx_flag r)
  else
    []

/-- The divisors of the legacy packed cache decode are nonzero whenever the
corresponding size lane is: for each of the four lane groups of
`detect_amd_caches`, a nonzero decoded size comes with a nonzero
`ways * line_size` product. This is exactly the side condition under which the
legacy path's divisions cannot panic. -/
def amd_divisors_ok (env : CpuidEnv) : Prop :=
  (0 < (((cpuid env 0x80000005 0).ecx >>> 24) &&& 0xFF) * 1024 →
    0 < (((cpuid env 0x80000005 0).ecx >>> 16) &&& 0xFF) * ((cpuid env 0x80000005 0).ecx &&& 0xFF)) ∧
  (0 < (((cpuid env 0x80000005 0).edx >>> 24) &&& 0xFF) * 1024 →
    0 < (((cpuid env 0x80000005 0).edx >>> 16) &&& 0xFF) * ((cpuid env 0x80000005 0).edx &&& 0xFF)) ∧
  (0 < (((cpuid env 0x80000006 0).ecx >>> 16) &&& 0xFFFF) * 1024 →
    0 < (((cpuid env 0x80000006 0).ecx >>> 12) &&& 0xF) * ((cpuid env 0x80000006 0).ecx &&& 0xFF)) ∧
  (0 < (((cpuid env 0x80000006 0).edx >>> 18) &&& 0x3FFF) * 512 * 1024 →
    0 < (((cpuid env 0x80000006 0).edx >>> 12) &&& 0xF) * ((cpuid env 0x80000006 0).edx &&& 0xFF))

/-- Finite probe environment: registers are looked up in an association list
keyed by (leaf, subleaf); every unlisted query answers all-zero words. -/
def env_of_table (t : List ((Nat × Nat) × CpuidResult)) : CpuidEnv :=
  ⟨fun leaf subleaf => (t.lookup (leaf, subleaf)).getD ⟨0, 0, 0, 0⟩⟩

/-- The all-zero environment: every leaf reads as zero, so the maximum
standard and extended leaves are both 0. -/
def env_zero : CpuidEnv := env_of_table []

/-- A well-behaved synthetic environment: standard leaves up to 0xFF and
extended leaves up to 0x8000_0008 are supported; leaf 4 carries one
deterministic cache subleaf (the spec's synthetic 32 KB tuple), leaf 0xA a
version-1 PMU with EBX bit 6 set and EDX bits 0..2 set, leaf 0xB an SMT width
of 2 and a core width of 16, and leaf 0x8000_0008 the widths 39/48 with a
zero guest-physical field. -/
def env_std : CpuidEnv := env_of_table
  [ ((0, 0), ⟨0xFF, 0, 0, 0⟩),
    ((4, 0), ⟨0x21, (7 <<< 22) ||| (0 <<< 12) ||| 63, 63, 0⟩),
    ((0xA, 0), ⟨1, 64, 0, 7⟩),
    ((0xB, 0), ⟨0, 2, 256, 0⟩),
    ((0xB, 1), ⟨0, 16, 512, 0⟩),
    ((0x80000000, 0), ⟨0x80000008, 0, 0, 0⟩),
    ((0x80000008, 0), ⟨0x3027, 0, 0, 0⟩) ]

/-- Environment refuting the no-abort claim: leaf 4 is unsupported, the
extended maximum is 0x8000_0005, and that leaf's ECX reports an L1 data size
byte of 1 (1 KB) with zero ways and zero line-size bytes, so the legacy
decoder divides by zero. Every leaf it reads is gate-supported. -/
def env_c1x : CpuidEnv := env_of_table
  [ ((0x80000000, 0), ⟨0x80000005, 0, 0, 0⟩),
    ((0x80000005, 0), ⟨0, 0, 0x01000000, 0⟩) ]

/-- Environment refuting the exact-product size claim: one deterministic
cache subleaf with the maximal ways/partitions/line-size fields and two sets,
whose exact size product is 2^33 and wraps to 0 in the `u32` computation. -/
def env_c2x : CpuidEnv := env_of_table
  [ ((0, 0), ⟨4, 0, 0, 0⟩),
    ((4, 0), ⟨0x21, (1023 <<< 22) ||| (1023 <<< 12) ||| 4095, 1, 0⟩) ]

/-- Environment for the synthetic topology instance: leaf 0xB reports an SMT
grouping width of 2 (level type 1) and a core grouping width of 16
(level type 2). -/
def env_c3w : CpuidEnv := env_of_table
  [ ((0, 0), ⟨0xB, 0, 0, 0⟩),
    ((0xB, 0), ⟨0, 2, 256, 0⟩),
    ((0xB, 1), ⟨0, 16, 512, 0⟩) ]

/-- Environment refuting the unconditional topology product invariant: an SMT
width of 3 does not divide the core width 16, so 16 / 3 = 5 cores times 3
threads is 15, not 16. -/
def env_c3x : CpuidEnv := env_of_table
  [ ((0, 0), ⟨0xB, 0, 0, 0⟩),
    ((0xB, 0), ⟨0, 3, 256, 0⟩),
    ((0xB, 1), ⟨0, 16, 512, 0⟩) ]

/-- Well-behaved legacy (AMD-style) cache environment: 32 KB 8-way L1 lanes
with 64-byte lines, a 512 KB L2 lane and an 8 × 512 KB L3 lane. -/
def env_c9w : CpuidEnv := env_of_table
  [ ((0x80000000, 0), ⟨0x80000006, 0, 0, 0⟩),
    ((0x80000005, 0), ⟨0, 0, (32 <<< 24) ||| (8 <<< 16) ||| 64, (32 <<< 24) ||| (8 <<< 16) ||| 64⟩),
    ((0x80000006, 0), ⟨0, 0, (512 <<< 16) ||| (6 <<< 12) ||| 64, (8 <<< 18) ||| (6 <<< 12) ||| 64⟩) ]

/-- Environment refuting the exact legacy set-count claim: the L3 lane
reports 8192 × 512 KB = 2^32 bytes with ways code 1 and line size 1, so the
true quotient 2^32 is truncated to 0 by the `as u32` cast. -/
def env_c9x : CpuidEnv := env_of_table
  [ ((0x80000000, 0), ⟨0x80000006, 0, 0, 0⟩),
    ((0x80000006, 0), ⟨0, 0, 0, (8192 <<< 18) ||| (1 <<< 12) ||| 1⟩) ]

/-- Helper: masking with a single bit `1 <<< i` is zero iff that bit of `x`
is clear. -/
theorem land_one_shift_eq_zero_iff (x i : Nat) :
    (x &&& (1 <<< i) = 0) ↔ x.testBit i = false := by
  rw [Nat.shiftLeft_eq, one_mul, Nat.and_two_pow]
  cases h : x.testBit i <;> simp [h, Nat.pos_iff_ne_zero.mp (Nat.two_pow_pos i)]

/-- C5 counterexample: at the full-width triple (value = 1, start = 0,
end = 31) the code's `1u32 << 32` overflows (the shift amount is masked to 0
in release builds, and panics in debug builds), so `extract_bits` returns 0
while the exact-integer formula gives 1. -/
theorem c5_extract_bits_full_width_mismatch :
    (CpuidResult.mk 1 0 0 0).extract_bits Register.Eax 0 31 ≠
      ((CpuidResult.mk 1 0 0 0).reg Register.Eax >>> 0) &&& ((1 <<< (31 - 0 + 1)) - 1) := by
  decide

/-- C5 (amended): for every register value and every inclusive bit range
`start ≤ end ≤ 31` of width strictly below 32 bits (that is, excluding the
single full-word range (0, 31)), `extract_bits` agrees with the exact-integer
formula `(value >> start) & ((1 << (end - start + 1)) - 1)`. -/
theorem c5_extract_bits_matches_manual (r : CpuidResult) (register : Register)
    (start e : Nat) (h1 : start ≤ e) (h2 : e ≤ 31) (h3 : e - start < 31) :
    r.extract_bits register start e =
      (r.reg register >>> start) &&& ((1 <<< (e - start + 1)) - 1) := by
  have h32 : (2 : Nat) ^ 32 = 4294967296 := by norm_num
  have hsh : ((e + 2 ^ 32 - start) % 2 ^ 32 + 1) % 2 ^ 32 % 32 = e - start + 1 := by
    rw [h32]; omega
  have hst : start % 32 = start := Nat.mod_eq_of_lt (by omega)
  simp only [CpuidResult.extract_bits, hsh, hst]

/-- C5 witness: the range [11:8] of the signature word 0x906EA. -/
theorem c5_extract_bits_matches_manual_witness :
    (CpuidResult.mk 0x906EA 0 0 0).extract_bits Register.Eax 8 11 =
      ((CpuidResult.mk 0x906EA 0 0 0).reg Register.Eax >>> 8) &&& ((1 <<< (11 - 8 + 1)) - 1) :=
  c5_extract_bits_matches_manual _ _ 8 11 (by decide) (by decide) (by decide)

/-- C6: the support gate accepts a leaf exactly when it is a standard leaf
(below 0x8000_0000) at most the cached maximum standard leaf, or an extended
leaf at most the cached maximum extended leaf; in particular it rejects every
leaf beyond the respective maximum. -/
theorem c6_leaf_support_gate (env : CpuidEnv) (leaf : Nat) :
    is_leaf_supported env leaf = true ↔
      ((leaf < 0x80000000 ∧ leaf ≤ max_cpuid_leaf env) ∨
       (0x80000000 ≤ leaf ∧ leaf ≤ max_extended_leaf env)) := by
  unfold is_leaf_supported
  split <;> rename_i h <;> simp [decide_eq_true_iff] <;> omega

/-- Helper: a value `a` shifted into the high nibble or-ed with a low nibble
`b < 16` is the arithmetic combination `a * 16 + b`. -/
theorem shiftLeft_four_lor_eq (a b : Nat) (hb : b < 2 ^ 4) :
    (a <<< 4) ||| b = a * 2 ^ 4 + b := by
  rw [Nat.shiftLeft_eq, Nat.mul_comm, ← Nat.mul_add_lt_is_or hb a, Nat.mul_comm]

/-- C8: family is the signature's bits [11:8], with the extended family bits
[27:20] added exactly when the base family is 0xF; model is bits [7:4],
prefixed by bits [19:16] as the high nibble exactly when the pre-fold family
is 6 or 0xF; in particular 0x000906EA decodes to family 6 and model
(9 << 4) | 0xE. -/
theorem c8_family_model_folding :
    (∀ eax : Nat,
      extract_family eax =
        (if eax / 2 ^ 8 % 2 ^ 4 = 0xF then
          eax / 2 ^ 8 % 2 ^ 4 + eax / 2 ^ 20 % 2 ^ 8
         else
          eax / 2 ^ 8 % 2 ^ 4) ∧
      extract_model eax =
        (if eax / 2 ^ 8 % 2 ^ 4 = 0x6 ∨ eax / 2 ^ 8 % 2 ^ 4 = 0xF then
          eax / 2 ^ 16 % 2 ^ 4 * 2 ^ 4 + eax / 2 ^ 4 % 2 ^ 4
         else
          eax / 2 ^ 4 % 2 ^ 4)) ∧
    extract_family 0x000906EA = 6 ∧ extract_model 0x000906EA = (9 <<< 4) ||| 0xE := by
  refine ⟨fun eax => ⟨?_, ?_⟩, by decide, by decide⟩
  · simp only [extract_family, Nat.shiftRight_eq_div_pow,
      land_mask_eq_mod _ 4 15 (by norm_num), land_mask_eq_mod _ 8 255 (by norm_num)]
  · simp only [extract_model, Nat.shiftRight_eq_div_pow,
      land_mask_eq_mod _ 4 15 (by norm_num)]
    split <;> rename_i h
    · exact shiftLeft_four_lor_eq _ _ (Nat.mod_lt _ (by norm_num))
    · rfl

/-- C10: without leaf 0x8000_0008 the address decoder returns the defaults
(36 physical bits, 48 virtual bits, no guest-physical width); with it, the
guest-physical width is absent exactly when bits [23:16] of that leaf's EAX
are zero. -/
theorem c10_address_defaults_and_guest (env : CpuidEnv) :
    (is_leaf_supported env 0x80000008 = false →
      AddressInfo.detect env = ⟨36, 48, none⟩) ∧
    (is_leaf_supported env 0x80000008 = true →
      ((AddressInfo.detect env).guest_physical_bits = none ↔
        ((cpuid env 0x80000008 0).eax >>> 16) &&& 0xFF = 0)) := by
  constructor
  · intro h
    simp [AddressInfo.detect, h]
  · intro h
    simp only [AddressInfo.detect, h, if_true]
    by_cases hg : 0 < ((cpuid env 0x80000008 0).eax >>> 16) &&& 0xFF
    · simp [hg]; omega
    · simp [hg]; omega

/-- C10 witness: the all-zero environment takes the defaults, and the
synthetic environment (leaf 0x8000_0008 EAX = 0x3027) has a zero
guest-physical field and hence no guest-physical width. -/
theorem c10_address_defaults_and_guest_witness :
    AddressInfo.detect env_zero = ⟨36, 48, none⟩ ∧
    ((AddressInfo.detect env_std).guest_physical_bits = none ↔
      ((cpuid env_std 0x80000008 0).eax >>> 16) &&& 0xFF = 0) :=
  ⟨(c10_address_defaults_and_guest env_zero).1 (by decide),
   (c10_address_defaults_and_guest env_std).2 (by decide)⟩

/-- C4 evidence (code bug): `VendorInfo::detect` probes the signature leaf 1
and the brand-string leaves 0x8000_0002..0x8000_0004 unconditionally — its
probe trace contains them even in an environment whose support gate rejects
them (here: maximum standard leaf 0, maximum extended leaf 0), and the
function never consults `is_leaf_supported` at all. -/
theorem c4_vendor_probes_unguarded :
    ((1, 0) ∈ vendor_detect_probes ∧ is_leaf_supported env_zero 1 = false) ∧
    ((0x80000002, 0) ∈ vendor_detect_probes ∧
      is_leaf_supported env_zero 0x80000002 = false) ∧
    ((0x80000004, 0) ∈ vendor_detect_probes ∧
      is_leaf_supported env_zero 0x80000004 = false) := by
  decide

/-- C7: every flag recorded from the performance-monitoring leaf's EBX table
is in the decoder's output and is supported exactly when its EBX bit is
clear (inverted polarity), while every flag from the EDX fixed-counter table
is in the output and is supported exactly when its EDX bit is set. -/
theorem c7_perfmon_polarity (env : CpuidEnv) (h : is_leaf_supported env 0xA = true) :
    (∀ p ∈ perfmon_ebx_features,
      perfmon_ebx_flag (cpuid env 0xA 0) p ∈ detect_perfmon env ∧
      ((perfmon_ebx_flag (cpuid env 0xA 0) p).supported = true ↔
        (cpuid env 0xA 0).ebx.testBit p.1 = false)) ∧
    (∀ p ∈ perfmon_edx_features,
      perfmon_edx_flag (cpuid env 0xA 0) p ∈ detect_perfmon env ∧
      ((perfmon_edx_flag (cpuid env 0xA 0) p).supported = true ↔
        (cpuid env 0xA 0).edx.testBit p.1 = true)) := by
  constructor
  · intro p hp
    have hbit : p.1 % 32 = p.1 := by
      fin_cases hp <;> decide
    constructor
    · simp only [detect_perfmon, h, if_true]
      exact List.mem_append.2 (Or.inl (List.mem_append.2 (Or.inr
        (List.mem_map_of_mem _ hp))))
    · simp only [perfmon_ebx_flag, hbit, beq_iff_eq]
      exact land_one_shift_eq_zero_iff _ _
  · intro p hp
    have hbit : p.1 % 32 = p.1 := by
      fin_cases hp <;> decide
    constructor
    · simp only [detect_perfmon, h, if_true]
      exact List.mem_append.2 (Or.inr (List.mem_map_of_mem _ hp))
    · simp only [perfmon_edx_flag, hbit, bne_iff_ne, ne_eq]
      rw [← not_iff_not]
      push_neg
      simp only [Bool.not_eq_true]
      exact land_one_shift_eq_zero_iff _ _

/-- C7 witness: in the synthetic environment (leaf 0xA EBX = 64, EDX = 7),
EBX bit 0 is clear so the core-cycle event flag is supported, and EDX bit 0
is set so fixed counter 0 is supported. -/
theorem c7_perfmon_polarity_witness :
    (perfmon_ebx_flag (cpuid env_std 0xA 0)
      (0, "PERFMON_CORE_CYCLES", FeatureCategory.Performance,
        "Core cycle event available")).supported = true ∧
    (perfmon_edx_flag (cpuid env_std 0xA 0)
      (0, "PERFMON_FIXED_CTR0", FeatureCategory.Performance,
        "Fixed counter 0")).supported = true := by
  constructor
  · exact ((c7_perfmon_polarity env_std (by decide)).1 _
      (by simp [perfmon_ebx_features])).2.mpr (by decide)
  · exact ((c7_perfmon_polarity env_std (by decide)).2 _
      (by simp [perfmon_edx_features])).2.mpr (by decide)

/-- C3 counterexample: with leaf 0xB supported and an SMT width of 3 against
a core width of 16, the detected topology has physical_cores = 16 / 3 = 5,
and 5 * 3 = 15 ≠ 16, so the product invariant fails as stated. -/
theorem c3_topology_product_fails_non_divisible :
    is_leaf_supported env_c3x 0xB = true ∧
    (CpuTopology.detect env_c3x).physical_cores *
      (CpuTopology.detect env_c3x).threads_per_core ≠
      (CpuTopology.detect env_c3x).logical_processors := by
  decide

/-- C3 (amended): whenever leaf 0xB is supported and the decoded SMT width
(threads per core) and core width (logical processors) are positive with the
former dividing the latter, the detected topology satisfies
physical_cores * threads_per_core = logical_processors; the synthetic
subleaves (level type 1 width 2, level type 2 width 16) decode to
physical_cores = 8, threads_per_core = 2, logical_processors = 16. -/
theorem c3_topology_product (env : CpuidEnv)
    (h : is_leaf_supported env 0xB = true)
    (htpc : 0 < detect_threads_per_core_leaf_b env)
    (hlp : 0 < detect_logical_processors_leaf_b env)
    (hdvd : detect_threads_per_core_leaf_b env ∣ detect_logical_processors_leaf_b env) :
    (CpuTopology.detect env).physical_cores * (CpuTopology.detect env).threads_per_core =
      (CpuTopology.detect env).logical_processors := by
  simp only [CpuTopology.detect, h, if_true]
  rw [if_pos ⟨hlp, htpc⟩]
  exact Nat.div_mul_cancel hdvd

/-- C3 witness: the synthetic environment decodes to 8 cores, 2 threads per
core and 16 logical processors, and the product invariant holds there. -/
theorem c3_topology_product_witness :
    CpuTopology.detect env_c3w = ⟨16, 8, 2, false, false⟩ ∧
    (CpuTopology.detect env_c3w).physical_cores *
      (CpuTopology.detect env_c3w).threads_per_core =
      (CpuTopology.detect env_c3w).logical_processors :=
  ⟨by decide,
   c3_topology_product env_c3w (by decide) (by decide) (by decide) (by decide)⟩

/-- Helper: every entry of the deterministic cache walk comes from decoding
the registers of some probed subleaf below the iteration bound. -/
theorem intel_go_mem (env : CpuidEnv) :
    ∀ fuel index c, c ∈ intel_go env fuel index →
      ∃ i, index ≤ i ∧ i < index + fuel ∧ decode_intel_subleaf (cpuid env 4 i) = some c := by
  intro fuel
  induction fuel with
  | zero =>
    intro index c hc
    simp [intel_go] at hc
  | succ n ih =>
    intro index c hc
    unfold intel_go at hc
    by_cases h0 : (cpuid env 4 index).eax &&& 0x1F = 0
    · rw [if_pos h0] at hc
      simp at hc
    · rw [if_neg h0] at hc
      cases hdec : decode_intel_subleaf (cpuid env 4 index) with
      | some c' =>
        rw [hdec] at hc
        rcases List.mem_cons.1 hc with hhd | htl
        · exact ⟨index, Nat.le_refl _, by omega, by rw [hdec, hhd]⟩
        · obtain ⟨i, hi1, hi2, hi3⟩ := ih (index + 1) c htl
          exact ⟨i, by omega, by omega, hi3⟩
      | none =>
        rw [hdec] at hc
        obtain ⟨i, hi1, hi2, hi3⟩ := ih (index + 1) c hc
        exact ⟨i, by omega, by omega, hi3⟩

/-- C2 counterexample: a deterministic subleaf encoding ways = 1024,
partitions = 1024, line size = 4096, sets = 2 produces an entry whose exact
field product is 2^33, but the recorded size is the wrapped `u32` product 0. -/
theorem c2_intel_size_wraps_at_2pow33 :
    detect_intel_caches env_c2x =
      [⟨CacheLevel.L1, CacheType.Data, 0, 1024, 4096, 2, 1⟩] ∧
    (0 : Nat) ≠ 1024 * 1024 * 4096 * 2 := by
  constructor
  · decide
  · decide

/-- C2 (amended): every entry of the deterministic decode path records
size = ways * partitions * line_size * sets computed in `u32`, that is,
modulo 2^32 — equal to the exact product whenever that product fits in 32
bits; the synthetic tuple (level 1, type 1, ways field 7, partitions field 0,
line-size field 63, sets field 63) decodes to size 32768 = 8 * 1 * 64 * 64. -/
theorem c2_intel_size_product :
    (∀ env c, c ∈ detect_intel_caches env →
      ∃ i, i < 32 ∧ decode_intel_subleaf (cpuid env 4 i) = some c) ∧
    (∀ r c, decode_intel_subleaf r = some c →
      c.size = c.ways * intel_partitions r * c.line_size * c.sets % 2 ^ 32 ∧
      (c.ways * intel_partitions r * c.line_size * c.sets < 2 ^ 32 →
        c.size = c.ways * intel_partitions r * c.line_size * c.sets)) ∧
    decode_intel_subleaf ⟨0x21, (7 <<< 22) ||| (0 <<< 12) ||| 63, 63, 0⟩ =
      some ⟨CacheLevel.L1, CacheType.Data, 32768, 8, 64, 64, 1⟩ := by
  refine ⟨?_, ?_, by decide⟩
  · intro env c hc
    obtain ⟨i, _, hi2, hi3⟩ := intel_go_mem env 32 0 c hc
    exact ⟨i, by omega, hi3⟩
  · intro r c h
    unfold decode_intel_subleaf at h
    rcases ht : intel_cache_type (r.eax &&& 0x1F) with _ | ct <;>
      rcases hl : intel_cache_level ((r.eax >>> 5) &&& 0x7) with _ | lv <;>
      simp only [ht, hl] at h
    all_goals try exact Option.noConfusion h
    injection h with h
    subst h
    exact ⟨rfl, fun hlt => Nat.mod_eq_of_lt hlt⟩

/-- C2 witness: instantiating the modular size invariant at the synthetic
32 KB tuple. -/
theorem c2_intel_size_product_witness :
    (32768 : Nat) =
      8 * intel_partitions ⟨0x21, (7 <<< 22) ||| (0 <<< 12) ||| 63, 63, 0⟩ * 64 * 64 % 2 ^ 32 :=
  (c2_intel_size_product.2.1 ⟨0x21, (7 <<< 22) ||| (0 <<< 12) ||| 63, 63, 0⟩
    ⟨CacheLevel.L1, CacheType.Data, 32768, 8, 64, 64, 1⟩ c2_intel_size_product.2.2).1

/-- Helper: a legacy lane whose divisor is nonzero whenever its size is
produces a value (no division-by-zero panic). -/
theorem amd_lane_isSome (level : CacheLevel) (cache_type : CacheType)
    (size ways line_size : Nat) (h : 0 < size → 0 < ways * line_size) :
    ∃ xs, amd_lane level cache_type size ways line_size = some xs := by
  unfold amd_lane checked_div
  by_cases hs : 0 < size
  · have hz : ¬ ways * line_size = 0 := by
      have := h hs
      omega
    rw [if_pos hs, if_neg hz]
    exact ⟨_, rfl⟩
  · rw [if_neg hs]
    exact ⟨[], rfl⟩

/-- Helper: every entry a legacy lane produces carries the lane's level and
dimensions, a nonzero divisor, and the truncated derived set count. -/
theorem amd_lane_sound (level : CacheLevel) (cache_type : CacheType)
    (size ways line_size : Nat) (xs : List CacheInfo)
    (h : amd_lane level cache_type size ways line_size = some xs) :
    ∀ c ∈ xs, c.level = level ∧ c.size = size ∧ c.ways = ways ∧
      c.line_size = line_size ∧ 0 < ways * line_size ∧
      c.sets = size / (ways * line_size) % 2 ^ 32 := by
  intro c hc
  unfold amd_lane checked_div at h
  by_cases hs : 0 < size
  · rw [if_pos hs] at h
    by_cases hz : ways * line_size = 0
    · rw [if_pos hz] at h
      exact Option.noConfusion h
    · rw [if_neg hz] at h
      injection h with h
      subst h
      rcases List.mem_singleton.1 hc with rfl
      exact ⟨rfl, rfl, rfl, rfl, Nat.pos_of_ne_zero hz, rfl⟩
  · rw [if_neg hs] at h
    injection h with h
    subst h
    simp at hc

/-- C1 counterexample: in an environment whose support gate accepts exactly
the leaves the legacy decoder reads (leaf 4 unsupported, extended maximum
0x8000_0005) but whose L1-data lane reports size 1 KB with zero ways and
line-size bytes, cache detection aborts with a division by zero instead of
returning a value. -/
theorem c1_amd_divide_by_zero_aborts :
    CacheInfo.detect_all env_c1x = none ∧
    is_leaf_supported env_c1x 0x80000005 = true ∧
    is_leaf_supported env_c1x 0x80000006 = false ∧
    is_leaf_supported env_c1x 4 = false := by
  decide

/-- C1 (amended): the cache decoders complete and return a value on every
supported-leaf path, except that the legacy packed decoder divides by zero —
and thus aborts — when a lane reports a nonzero size with a zero
ways × line-size product; whenever every nonzero-size lane has a nonzero
divisor, both the legacy decoder and the cache detection entry point return
a value. (The deterministic leaf-4 path and the other embedded decoders are
total functions and never abort.) -/
theorem c1_no_abort_with_nonzero_divisors (env : CpuidEnv) (h : amd_divisors_ok env) :
    (detect_amd_caches env).isSome = true ∧ (CacheInfo.detect_all env).isSome = true := by
  obtain ⟨h1, h2, h3, h4⟩ := h
  have hamd : (detect_amd_caches env).isSome = true := by
    unfold detect_amd_caches
    obtain ⟨d, hd⟩ := amd_lane_isSome CacheLevel.L1 CacheType.Data _ _ _ h1
    obtain ⟨i, hi⟩ := amd_lane_isSome CacheLevel.L1 CacheType.Instruction _ _ _ h2
    obtain ⟨l2, hl2⟩ := amd_lane_isSome CacheLevel.L2 CacheType.Unified _ _ _ h3
    obtain ⟨l3, hl3⟩ := amd_lane_isSome CacheLevel.L3 CacheType.Unified _ _ _ h4
    by_cases s5 : is_leaf_supported env 0x80000005 = true <;>
      by_cases s6 : is_leaf_supported env 0x80000006 = true <;>
        simp [s5, s6, hd, hi, hl2, hl3, Option.bind]
  refine ⟨hamd, ?_⟩
  unfold CacheInfo.detect_all
  by_cases s4 : is_leaf_supported env 4 = true
  · simp [s4]
  · by_cases s5 : is_leaf_supported env 0x80000005 = true <;> simp [s4, s5, hamd]

/-- C1 witness: the all-zero environment trivially satisfies the nonzero-
divisor condition (all size lanes are zero) and cache detection returns a
value there. -/
theorem c1_no_abort_with_nonzero_divisors_witness :
    amd_divisors_ok env_zero ∧ (CacheInfo.detect_all env_zero).isSome = true := by
  have h : amd_divisors_ok env_zero := by
    unfold amd_divisors_ok
    decide
  exact ⟨h, (c1_no_abort_with_nonzero_divisors env_zero h).2⟩

/-- C9 counterexample: an L3 lane reporting 8192 × 512 KB = 2^32 bytes with
ways code 1 and line size 1 produces an entry whose recorded set count is 0,
while the exact quotient size / (ways * line_size) is 2^32 — the `as u32`
cast truncates it. -/
theorem c9_legacy_sets_truncated_at_2pow32 :
    detect_amd_caches env_c9x =
      some [⟨CacheLevel.L3, CacheType.Unified, 4294967296, 1, 1, 0, 1⟩] ∧
    (0 : Nat) ≠ 4294967296 / (1 * 1) := by
  constructor
  · decide
  · decide

/-- C9 (amended): every entry the legacy packed decoder produces has a
nonzero divisor and records sets = size / (ways * line_size) truncated to 32
bits (`as u32`) — equal to the exact integer quotient whenever that quotient
is below 2^32; L2 entries take their size from the 16-bit KB lane of leaf
0x8000_0006 ECX and L3 entries from the 14-bit × 512 KB field of its EDX. -/
theorem c9_legacy_sets_derived_by_division (env : CpuidEnv) (l : List CacheInfo)
    (h : detect_amd_caches env = some l) :
    ∀ c ∈ l, 0 < c.ways * c.line_size ∧
      c.sets = c.size / (c.ways * c.line_size) % 2 ^ 32 ∧
      (c.size / (c.ways * c.line_size) < 2 ^ 32 →
        c.sets = c.size / (c.ways * c.line_size)) ∧
      (c.level = CacheLevel.L2 →
        c.size = (((cpuid env 0x80000006 0).ecx >>> 16) &&& 0xFFFF) * 1024) ∧
      (c.level = CacheLevel.L3 →
        c.size = (((cpuid env 0x80000006 0).edx >>> 18) &&& 0x3FFF) * 512 * 1024) := by
  unfold detect_amd_caches at h
  rw [Option.bind_eq_some] at h
  obtain ⟨l1, h1, h'⟩ := h
  rw [Option.bind_eq_some] at h'
  obtain ⟨l23, h23, hl⟩ := h'
  injection hl with hl
  subst hl
  intro c hc
  have main : ∀ (level : CacheLevel) (ct : CacheType) (size ways line_size : Nat)
      (xs : List CacheInfo), amd_lane level ct size ways line_size = some xs → c ∈ xs →
      0 < c.ways * c.line_size ∧
      c.sets = c.size / (c.ways * c.line_size) % 2 ^ 32 ∧
      (c.size / (c.ways * c.line_size) < 2 ^ 32 →
        c.sets = c.size / (c.ways * c.line_size)) ∧
      c.level = level ∧ c.size = size := by
    intro level ct size ways line_size xs hx hcx
    obtain ⟨e1, e2, e3, e4, e5, e6⟩ := amd_lane_sound _ _ _ _ _ _ hx c hcx
    rw [e2, e3, e4, e6]
    exact ⟨e5, rfl, fun hlt => Nat.mod_eq_of_lt hlt, e1, rfl⟩
  rcases List.mem_append.1 hc with hc1 | hc2
  · by_cases s5 : is_leaf_supported env 0x80000005 = true
    · rw [if_pos s5] at h1
      rw [Option.bind_eq_some] at h1
      obtain ⟨d, hd, h1⟩ := h1
      rw [Option.bind_eq_some] at h1
      obtain ⟨i, hi, h1⟩ := h1
      injection h1 with h1
      subst h1
      rcases List.mem_append.1 hc1 with hcd | hci
      · obtain ⟨p1, p2, p3, plvl, _⟩ := main _ _ _ _ _ _ hd hcd
        exact ⟨p1, p2, p3,
          fun h2 => absurd (plvl.symm.trans h2) (by decide),
          fun h3 => absurd (plvl.symm.trans h3) (by decide)⟩
      · obtain ⟨p1, p2, p3, plvl, _⟩ := main _ _ _ _ _ _ hi hci
        exact ⟨p1, p2, p3,
          fun h2 => absurd (plvl.symm.trans h2) (by decide),
          fun h3 => absurd (plvl.symm.trans h3) (by decide)⟩
    · rw [if_neg s5] at h1
      injection h1 with h1
      subst h1
      simp at hc1
  · by_cases s6 : is_leaf_supported env 0x80000006 = true
    · rw [if_pos s6] at h23
      rw [Option.bind_eq_some] at h23
      obtain ⟨l2, hl2, h23⟩ := h23
      rw [Option.bind_eq_some] at h23
      obtain ⟨l3, hl3, h23⟩ := h23
      injection h23 with h23
      subst h23
      rcases List.mem_append.1 hc2 with hcl2 | hcl3
      · obtain ⟨p1, p2, p3, plvl, psz⟩ := main _ _ _ _ _ _ hl2 hcl2
        exact ⟨p1, p2, p3, fun _ => psz,
          fun h3 => absurd (plvl.symm.trans h3) (by decide)⟩
      · obtain ⟨p1, p2, p3, plvl, psz⟩ := main _ _ _ _ _ _ hl3 hcl3
        exact ⟨p1, p2, p3,
          fun h2 => absurd (plvl.symm.trans h2) (by decide),
          fun _ => psz⟩
    · rw [if_neg s6] at h23
      injection h23 with h23
      subst h23
      simp at hc2

/-- C9 witness: the well-behaved legacy environment yields four entries; its
L1 data entry records 64 = 32768 / (8 * 64) sets, the exact quotient. -/
theorem c9_legacy_sets_derived_by_division_witness :
    (⟨CacheLevel.L1, CacheType.Data, 32768, 8, 64, 64, 1⟩ : CacheInfo).sets =
      (⟨CacheLevel.L1, CacheType.Data, 32768, 8, 64, 64, 1⟩ : CacheInfo).size /
        ((⟨CacheLevel.L1, CacheType.Data, 32768, 8, 64, 64, 1⟩ : CacheInfo).ways *
          (⟨CacheLevel.L1, CacheType.Data, 32768, 8, 64, 64, 1⟩ : CacheInfo).line_size) :=
  ((c9_legacy_sets_derived_by_division env_c9w
      [⟨CacheLevel.L1, CacheType.Data, 32768, 8, 64, 64, 1⟩,
       ⟨CacheLevel.L1, CacheType.Instruction, 32768, 8, 64, 64, 1⟩,
       ⟨CacheLevel.L2, CacheType.Unified, 524288, 6, 64, 1365, 1⟩,
       ⟨CacheLevel.L3, CacheType.Unified, 4194304, 6, 64, 10922, 1⟩]
      (by decide)
      ⟨CacheLevel.L1, CacheType.Data, 32768, 8, 64, 64, 1⟩
      (by decide)).2.2.1 (by decide))
